import Mathlib

/-!
Verification of the VM ping-monitoring reconciliation engine
(`Enable_VM_Ping_Monitoring.py`): a shallow embedding of the resource
gateway (`get_all_vms`, `get_specific_vms`), the reconciliation step
(`update_ping_enabled`), the state store (`_load_state`, `_vm_in_cache`)
and the batch driver (`process_vms`), together with theorems about the
retry policy, idempotence, the processing-record invariants and batch
fault isolation.

Modelling conventions:
  - The remote API is modelled by a list of scripted responses, consumed
    one per issued request; `requests` exceptions become constructors of
    `HTTPResult` / `PyErr`.
  - Side effects (HTTP requests, token refreshes, state-file saves) are
    recorded in an `Event` trace returned alongside each result.
  - Python dicts keyed by VM identifier become association lists
    (`PVMap`); dict assignment becomes `insertPV` (replace or append,
    preserving insertion order like a Python dict).
  - JSON values read from the state file are modelled by the `Json`
    inductive; `datetime.now().isoformat()` becomes an explicit `now`
    string parameter.
-/

/-- A typed resource identifier entry of a VM resource:
Python `{"identifierType": {"name": ...}, "value": ...}`. -/
structure IdentifierEntry where
  typeName : String
  value : String
deriving DecidableEq, Repr

/-- A VM resource as returned by the suite API:
`{"identifier": ..., "resourceKey": {"name": ..., "resourceIdentifiers": [...]}}`. -/
structure VMData where
  identifier : String
  name : String
  resourceIdentifiers : List IdentifierEntry
deriving DecidableEq, Repr

/-- The JSON values that can appear in the persisted state file. -/
inductive Json where
  | null : Json
  | bool : Bool → Json
  | num : Int → Json
  | str : String → Json
  | arr : List Json → Json
  | obj : List (String × Json) → Json

/-- A processing record kept in `self.processed_vms`, one per VM
identifier.  Field values are `Json` because `_load_state` copies
whatever values the file held; the reconciliation engine itself only
ever writes `Json.str` values.  `action` is an `Option` because both the
legacy-string normalization and a legacy dict without a `ping_enabled`
flag produce a record with no `action` key. -/
structure ProcessingRecord where
  name : Json
  first_processed : Json
  last_processed : Json
  ops_source : Json
  action : Option Json

/-- In-memory `self.processed_vms`: VM identifier → processing record. -/
abbrev PVMap : Type := List (String × ProcessingRecord)

/-- The minimal update payload built by `update_ping_enabled`:
`{"resourceKey": {"name", "adapterKindKey", "resourceKindKey",
"resourceIdentifiers"}, "identifier"}`. -/
structure UpdatePayload where
  name : String
  adapterKindKey : String
  resourceKindKey : String
  resourceIdentifiers : List IdentifierEntry
  identifier : String
deriving DecidableEq, Repr

/-- Python exceptions that the embedded code can raise to its caller. -/
inductive PyErr where
  | http : Nat → PyErr
  | transport : PyErr
  | recursionLimit : PyErr
  | attributeError : PyErr
  | unboundLocal : PyErr
deriving DecidableEq, Repr

/-- Outcome of one HTTP request, as seen after `raise_for_status()`:
a 2xx body, an `HTTPError` with a status code, or a non-HTTP exception
(connection error and the like). -/
inductive HTTPResult where
  | ok : List VMData → HTTPResult
  | httpError : Nat → HTTPResult
  | exn : HTTPResult
deriving DecidableEq, Repr

/-- Observable side effects, in program order. -/
inductive Event where
  | getRequest : Option String → Event
  | refreshToken : Event
  | putRequest : UpdatePayload → Event
  | attempt : String → Event
  | logError : String → Event
  | save : PVMap → Event

def isRefresh : Event → Bool
  | .refreshToken => true
  | _ => false

def isGet : Event → Bool
  | .getRequest _ => true
  | _ => false

def isPut : Event → Bool
  | .putRequest _ => true
  | _ => false

def countRefresh (l : List Event) : Nat := l.countP isRefresh

def countGet (l : List Event) : Nat := l.countP isGet

def countPut (l : List Event) : Nat := l.countP isPut

/-- `get_all_vms`, driven by the list of responses the server gives to
successive requests.  On a 401 the code refreshes the token and calls
itself again with no retry bound (`return self.get_all_vms()`); the
token refresh (`Fetch_New_Bearer_Token` followed by re-reading the token
file) is one `refreshToken` event.  An exhausted response list models a
server that answers 401 forever: in Python the recursion would
eventually hit the interpreter's recursion limit. -/
def get_all_vms : List HTTPResult → List Event × Except PyErr (List VMData)
  | [] => ([], .error .recursionLimit)
  | r :: rest =>
    match r with
    | .ok vms => ([.getRequest none], .ok vms)
    | .httpError s =>
      if s == 401 then
        let t := get_all_vms rest
        (.getRequest none :: .refreshToken :: t.1, t.2)
      else
        ([.getRequest none], .error (.http s))
    | .exn => ([.getRequest none], .error .transport)

def is401 : HTTPResult → Bool
  | .httpError s => s == 401
  | _ => false

/-- Spec-side description of the retry behaviour `get_all_vms` actually
has: the call returns the outcome of the first non-401 response, and a
server that never stops answering 401 drives the recursion into the
interpreter's recursion limit. -/
def firstOutcome (rs : List HTTPResult) : Except PyErr (List VMData) :=
  match (rs.dropWhile is401).head? with
  | some (.ok vms) => .ok vms
  | some (.httpError s) => .error (.http s)
  | some .exn => .error .transport
  | none => .error .recursionLimit

/-- Head of the scripted response list plus the remainder.  When the
script is exhausted the request is modelled as a transport error (`exn`),
which the surrounding handlers log and skip. -/
def takeResp : List HTTPResult → HTTPResult × List HTTPResult
  | [] => (.exn, [])
  | r :: rs => (r, rs)

/-- The body of the `for vm_name in vm_names` loop of `get_specific_vms`,
with the mutable `retried` flag threaded through.  One request per name;
a 401 while `retried` is still false refreshes the token, sets the flag
and re-issues that name's request once, with any exception during the
retry logged and the name skipped; every other error is logged and the
name skipped; an empty `resourceList` is logged as not-found and
contributes nothing. -/
def get_specific_vms_loop : List String → List HTTPResult → Bool → List Event × List VMData
  | [], _, _ => ([], [])
  | nm :: rest, rs, retried =>
    let h := takeResp rs
    match h.1 with
    | .ok vms =>
      let t := get_specific_vms_loop rest h.2 retried
      (.getRequest (some nm) :: t.1, vms ++ t.2)
    | .httpError s =>
      if s == 401 && !retried then
        let h2 := takeResp h.2
        match h2.1 with
        | .ok vms =>
          let t := get_specific_vms_loop rest h2.2 true
          (.getRequest (some nm) :: .refreshToken :: .getRequest (some nm) :: t.1, vms ++ t.2)
        | _ =>
          let t := get_specific_vms_loop rest h2.2 true
          (.getRequest (some nm) :: .refreshToken :: .getRequest (some nm) :: t.1, t.2)
      else
        let t := get_specific_vms_loop rest h.2 retried
        (.getRequest (some nm) :: t.1, t.2)
    | .exn =>
      let t := get_specific_vms_loop rest h.2 retried
      (.getRequest (some nm) :: t.1, t.2)

/-- `get_specific_vms`: the loop started with `retried = False`. -/
def get_specific_vms (names : List String) (rs : List HTTPResult) : List Event × List VMData :=
  get_specific_vms_loop names rs false

/-- Lookup in `self.processed_vms` (`vm_id in self.processed_vms` plus
`self.processed_vms[vm_id]`). -/
def lookupPV : PVMap → String → Option ProcessingRecord
  | [], _ => none
  | kv :: rest, id => if kv.1 == id then some kv.2 else lookupPV rest id

/-- Dict assignment `self.processed_vms[vm_id] = record`: replace in
place if the key exists, else append. -/
def insertPV : PVMap → String → ProcessingRecord → PVMap
  | [], id, r => [(id, r)]
  | kv :: rest, id, r => if kv.1 == id then (kv.1, r) :: rest else kv :: insertPV rest id r

/-- `_vm_in_cache`: the VM identifier maps to a valid record.  The
Python code also checks `isinstance(..., dict)`; in this embedding every
stored value is a `ProcessingRecord` (both `_load_state` and
`update_ping_enabled` only ever store dict-shaped records), so presence
alone is the faithful translation. -/
def _vm_in_cache (id : String) (m : PVMap) : Bool :=
  (lookupPV m id).isSome

/-- Lookup of a key in a parsed JSON object (`value.get(key)`). -/
def lookupJ : List (String × Json) → String → Option Json
  | [], _ => none
  | kv :: rest, key => if kv.1 == key then some kv.2 else lookupJ rest key

/-- Python truthiness of a JSON value, used by
`"ping_enabled" if value["ping_enabled"] else "unknown"`. -/
def truthy : Json → Bool
  | .null => false
  | .bool b => b
  | .num n => n != 0
  | .str s => s != ""
  | .arr l => !l.isEmpty
  | .obj l => !l.isEmpty

/-- One iteration of the normalization loop in `_load_state`: a bare
string becomes a record with name `"Unknown"` and both timestamps equal
to the string; a dict is rebuilt with defaults for missing keys, and
`action` is set from a legacy `ping_enabled` key when one is present
(the code's guard `"action" not in new_value` is always true at that
point, because `new_value` was just built without an `action` key);
any other value is skipped.  `now` stands for
`datetime.now().isoformat()` and `fqdn` for `self.ops_fqdn`. -/
def normalize_entry (fqdn now : String) : Json → Option ProcessingRecord
  | .str s => some ⟨ .str "Unknown", .str s, .str s, .str fqdn, none ⟩
  | .obj kvs =>
    some ⟨ (lookupJ kvs "name").getD (.str "Unknown"),
           (lookupJ kvs "first_processed").getD (.str now),
           (lookupJ kvs "last_processed").getD (.str now),
           (lookupJ kvs "ops_source").getD (.str fqdn),
           (lookupJ kvs "ping_enabled").map
             (fun pv => if truthy pv then .str "ping_enabled" else .str "unknown") ⟩
  | _ => none

/-- The `for vm_id, value in data.items()` loop of `_load_state`. -/
def loadEntries (fqdn now : String) : List (String × Json) → PVMap
  | [] => []
  | kv :: rest =>
    match normalize_entry fqdn now kv.2 with
    | some r => (kv.1, r) :: loadEntries fqdn now rest
    | none => loadEntries fqdn now rest

/-- What reading and parsing the state file produced: the file was
missing (`FileNotFoundError`), its content was not valid JSON
(`json.JSONDecodeError`), or `json.load` returned a JSON value. -/
inductive LoadInput where
  | missing : LoadInput
  | badJson : LoadInput
  | parsed : Json → LoadInput

/-- `_load_state`: a missing file and undecodable content are caught and
yield an empty map; a parsed JSON object is normalized entry by entry;
any other parsed value reaches `data.items()`, which raises an
`AttributeError` that no handler catches. -/
def _load_state (fqdn now : String) : LoadInput → Except PyErr PVMap
  | .missing => .ok []
  | .badJson => .ok []
  | .parsed (.obj kvs) => .ok (loadEntries fqdn now kvs)
  | .parsed _ => .error .attributeError

def Json.isObj : Json → Bool
  | .obj _ => true
  | _ => false

/-- The inner mutation of the payload-building loop of
`update_ping_enabled`: entries whose identifier type is `isPingEnabled`
have their value set to `'true'` in place; every other entry is left
alone. -/
def mutatePing (i : IdentifierEntry) : IdentifierEntry :=
  if i.typeName == "isPingEnabled" then ⟨ i.typeName, "true" ⟩ else i

/-- `identifier['identifierType']['name'] in ['isPingEnabled',
'VMEntityName', 'VMEntityObjectID', 'VMEntityVCID']`. -/
def isRequiredType (i : IdentifierEntry) : Bool :=
  i.typeName == "isPingEnabled" || i.typeName == "VMEntityName" ||
    i.typeName == "VMEntityObjectID" || i.typeName == "VMEntityVCID"

/-- The three metadata identifier types that must be carried through
unchanged. -/
def isMetaType (i : IdentifierEntry) : Bool :=
  i.typeName == "VMEntityName" || i.typeName == "VMEntityObjectID" ||
    i.typeName == "VMEntityVCID"

/-- The state of `vm_data['resourceKey']['resourceIdentifiers']` after
the payload-building loop ran (the loop mutates the entries in place). -/
def mutate_identifiers (l : List IdentifierEntry) : List IdentifierEntry :=
  l.map mutatePing

/-- `required_identifiers` as collected by the payload-building loop:
the entries of the four named types, in their original order, with the
`isPingEnabled` entries already mutated to `'true'`. -/
def required_identifiers (l : List IdentifierEntry) : List IdentifierEntry :=
  (l.map mutatePing).filter isRequiredType

/-- `needs_update`: some identifier entry has type `isPingEnabled` and a
value different from `'true'` (the Python loop breaks at the first such
entry). -/
def needs_update (vm : VMData) : Bool :=
  vm.resourceIdentifiers.any (fun i => i.typeName == "isPingEnabled" && i.value != "true")

/-- The record stored in `self.processed_vms[vm_id]` on a successful
pass: `first_processed` is taken from any existing record
(`self.processed_vms.get(vm_id, {}).get("first_processed", current_time)`),
`last_processed` is the current time. -/
def record_written (fqdn now action : String) (vm : VMData) (cache : PVMap) : ProcessingRecord :=
  ⟨ .str vm.name,
    match lookupPV cache vm.identifier with
    | some r => r.first_processed
    | none => .str now,
    .str now, .str fqdn, some (.str action) ⟩

/-- Result of one `update_ping_enabled` call.  `vmData` is the caller's
`vm_data` object after the call: the payload-building loop mutates its
identifier entries in place, so the embedding returns the (possibly
mutated) resource to stand for that aliasing. -/
structure UpdateResult where
  returned : Bool
  vmData : VMData
  cache : PVMap
  events : List Event

/-- `update_ping_enabled` for a single VM.  `writeOk` scripts the
outcome of the PUT request (`raise_for_status` succeeding or any
exception); `now` stands for `datetime.now().isoformat()`. -/
def update_ping_enabled (fqdn : String) (vm : VMData) (force_update : Bool)
    (cache : PVMap) (writeOk : Bool) (now : String) : UpdateResult :=
  if !force_update && _vm_in_cache vm.identifier cache then
    ⟨ false, vm, cache, [] ⟩
  else if needs_update vm then
    let vmMut : VMData := ⟨ vm.identifier, vm.name, mutate_identifiers vm.resourceIdentifiers ⟩
    let payload : UpdatePayload :=
      ⟨ vm.name, "VMWARE", "VirtualMachine", required_identifiers vm.resourceIdentifiers, vm.identifier ⟩
    if writeOk then
      ⟨ true, vmMut,
        insertPV cache vm.identifier (record_written fqdn now "ping_enabled" vm cache),
        [.putRequest payload] ⟩
    else
      ⟨ false, vmMut, cache, [.putRequest payload] ⟩
  else
    ⟨ false, vm,
      insertPV cache vm.identifier (record_written fqdn now "already_enabled" vm cache),
      [] ⟩

/-- One reconciliation sweep over a VM list: `update_ping_enabled` for
each VM in order, threading `self.processed_vms` and concatenating the
event traces.  `writeOk` scripts, per VM identifier, whether that VM's
PUT would succeed (the remote side's behaviour). -/
def reconcile_pass (fqdn : String) (force : Bool) (writeOk : String → Bool) (now : String) :
    List VMData → PVMap → PVMap × List Event
  | [], cache => (cache, [])
  | vm :: rest, cache =>
    let r := update_ping_enabled fqdn vm force cache (writeOk vm.identifier) now
    let t := reconcile_pass fqdn force writeOk now rest r.cache
    (t.1, r.events ++ t.2)

/-- Projections used to state the processing-record invariants. -/
def firstOf (m : PVMap) (id : String) : Option Json :=
  (lookupPV m id).map ProcessingRecord.first_processed

def lastOf (m : PVMap) (id : String) : Option Json :=
  (lookupPV m id).map ProcessingRecord.last_processed

/-- Whether `process_vms` returned or raised. -/
inductive ProcResult where
  | ret : ProcResult
  | raised : PyErr → ProcResult
deriving DecidableEq, Repr

/-- The `for vm in vms` loop of `process_vms`.  `step` is the per-VM
behaviour of `update_ping_enabled`: `(some updated, st)` for a normal
return, `(none, st)` for an exception raised while processing that VM
(with `st` the cache state at the moment it was raised).  An exception
is caught, logged with the VM's display name, and iteration continues;
otherwise the update counter is bumped and the periodic
`updates_made % 10 == 0` checkpoint fires. -/
def proc_loop (step : VMData → PVMap → Option Bool × PVMap) :
    List VMData → PVMap → Nat → Nat × PVMap × List Event
  | [], st, um => (um, st, [])
  | vm :: rest, st, um =>
    let s := step vm st
    match s.1 with
    | none =>
      let t := proc_loop step rest s.2 um
      (t.1, t.2.1, .attempt vm.identifier :: .logError vm.name :: t.2.2)
    | some updated =>
      let um1 := if updated then um + 1 else um
      let periodic : List Event := if um1 % 10 == 0 then [.save s.2] else []
      let t := proc_loop step rest s.2 um1
      (t.1, t.2.1, .attempt vm.identifier :: (periodic ++ t.2.2))

/-- The summary logging at the end of the `finally` block of
`process_vms`.  The f-string interpolates the local `updates_made`; if
the early `return` for an empty VM list was taken, that local was never
assigned and evaluating the f-string raises `UnboundLocalError`. -/
def summary_log : Option Nat → Except PyErr Unit
  | none => .error .unboundLocal
  | some _ => .ok ()

/-- `process_vms`, with the fetch already resolved to `vms` (the claims
modelled here script the fetch as succeeding with this list).  The try
body either returns early on an empty list — with `updates_made` still
unassigned — or runs the loop; the `finally` block then saves the state
unconditionally and runs the summary logging, whose outcome replaces the
body's on error. -/
def process_vms (vms : List VMData) (step : VMData → PVMap → Option Bool × PVMap)
    (st0 : PVMap) : ProcResult × PVMap × List Event :=
  let body : Option Nat × PVMap × List Event :=
    if vms.isEmpty then
      (none, st0, [])
    else
      let t := proc_loop step vms st0 0
      (some t.1, t.2.1, t.2.2)
  let evs := body.2.2 ++ [.save body.2.1]
  match summary_log body.1 with
  | .error e => (.raised e, body.2.1, evs)
  | .ok _ => (.ret, body.2.1, evs)

/-- The VM identifiers attempted by a batch, in order. -/
def attempts (evs : List Event) : List String :=
  evs.filterMap (fun e => match e with | .attempt id => some id | _ => none)

/-- Concrete VM resources used to instantiate the theorems. -/
def vmFull : VMData :=
  ⟨ "vm-1", "test-vm",
    [ ⟨ "isPingEnabled", "false" ⟩, ⟨ "VMEntityName", "test-vm" ⟩,
      ⟨ "VMEntityObjectID", "123" ⟩, ⟨ "VMEntityVCID", "vc-1" ⟩ ] ⟩

def vmA : VMData := ⟨ "vm-a-id", "vm-a", [ ⟨ "isPingEnabled", "true" ⟩ ] ⟩

def vmB : VMData := ⟨ "vm-b-id", "vm-b", [ ⟨ "isPingEnabled", "true" ⟩ ] ⟩

def vmC5 : VMData := ⟨ "vm-5", "vm-five", [ ⟨ "isPingEnabled", "false" ⟩ ] ⟩

def recC5 : ProcessingRecord :=
  ⟨ .str "vm-five", .str "t0", .str "t0", .str "ops.example", none ⟩

/-- A per-VM behaviour that raises on every VM, used to instantiate the
batch fault-isolation theorem. -/
def stepRaise : VMData → PVMap → Option Bool × PVMap := fun _ st => (none, st)

theorem lookupPV_insertPV_self (m : PVMap) (id : String) (r : ProcessingRecord) :
    lookupPV (insertPV m id r) id = some r := by
  induction m with
  | nil => simp [insertPV, lookupPV]
  | cons kv rest ih =>
    by_cases h : kv.1 = id
    · simp [insertPV, lookupPV, h]
    · simp [insertPV, lookupPV, h, ih]

theorem lookupPV_insertPV_ne (m : PVMap) (k id : String) (r : ProcessingRecord)
    (h : k ≠ id) : lookupPV (insertPV m id r) k = lookupPV m k := by
  induction m with
  | nil => simp [insertPV, lookupPV, Ne.symm h]
  | cons kv rest ih =>
    by_cases h1 : kv.1 = id
    · subst h1
      simp [insertPV, lookupPV, Ne.symm h]
    · by_cases h2 : kv.1 = k
      · simp [insertPV, lookupPV, h1, h2, h]
      · simp [insertPV, lookupPV, h1, h2, ih]

theorem mutatePing_typeName (i : IdentifierEntry) :
    (mutatePing i).typeName = i.typeName := by
  by_cases h : i.typeName = "isPingEnabled" <;> simp [mutatePing, h]

theorem mutatePing_ping_value (i : IdentifierEntry)
    (h : (mutatePing i).typeName = "isPingEnabled") : (mutatePing i).value = "true" := by
  by_cases h0 : i.typeName = "isPingEnabled"
  · simp [mutatePing, h0]
  · rw [mutatePing_typeName] at h
    exact absurd h h0

theorem isMetaType_mutatePing (i : IdentifierEntry) :
    isMetaType (mutatePing i) = isMetaType i := by
  simp [isMetaType, mutatePing_typeName]

theorem isMetaType_isRequiredType (i : IdentifierEntry) (h : isMetaType i = true) :
    isRequiredType i = true := by
  simp only [isMetaType, Bool.or_eq_true, beq_iff_eq] at h
  simp only [isRequiredType, Bool.or_eq_true, beq_iff_eq]
  tauto

theorem isMetaType_mutatePing_eq (i : IdentifierEntry) (h : isMetaType i = true) :
    mutatePing i = i := by
  simp only [isMetaType, Bool.or_eq_true, beq_iff_eq] at h
  rcases h with (h | h) | h <;> simp [mutatePing, h]

theorem filter_meta_payload (l : List IdentifierEntry) :
    ((l.map mutatePing).filter isRequiredType).filter isMetaType = l.filter isMetaType := by
  induction l with
  | nil => simp
  | cons i rest ih =>
    cases hm : isMetaType i with
    | true =>
      have hmi : mutatePing i = i := isMetaType_mutatePing_eq i hm
      have hr : isRequiredType i = true := isMetaType_isRequiredType i hm
      simp [List.filter_cons, hmi, hr, hm, ih]
    | false =>
      have hm' : isMetaType (mutatePing i) = false := by
        rw [isMetaType_mutatePing]
        exact hm
      cases hr : isRequiredType (mutatePing i) with
      | true => simp [List.filter_cons, hr, hm', hm, ih]
      | false => simp [List.filter_cons, hr, hm, ih]

theorem needs_update_iff (vm : VMData) :
    needs_update vm = true ↔
      ∃ i ∈ vm.resourceIdentifiers, i.typeName = "isPingEnabled" ∧ i.value ≠ "true" := by
  simp [needs_update, List.any_eq_true, Bool.and_eq_true, beq_iff_eq, bne_iff_ne]

/-- C1 (counterexample): the claim says a 401 during `get_all_vms` is
retried exactly once and a second 401 propagates as a fatal error.  On a
server that answers 401 twice and then succeeds, the code instead
refreshes the credential twice and returns the third response's body:
the second 401 triggered a further refresh-and-retry rather than
propagating. -/
theorem C1_counterexample :
    get_all_vms [.httpError 401, .httpError 401, .ok []] =
      ([.getRequest none, .refreshToken, .getRequest none, .refreshToken, .getRequest none],
        .ok [])
    ∧ countRefresh (get_all_vms [.httpError 401, .httpError 401, .ok []]).1 = 2 := by
  constructor
  · rfl
  · rfl

/-- C1 (amended): on HTTP 401 `get_all_vms` refreshes the credential and
re-issues the request recursively with no retry bound — one refresh per
401 received — and returns the outcome of the first non-401 response;
a server that answers 401 forever is never escalated (the recursion
would only stop at the interpreter's recursion limit, modelled by an
exhausted response script). -/
theorem C1_amended_thm (rs : List HTTPResult) :
    countRefresh (get_all_vms rs).1 = (rs.takeWhile is401).length
    ∧ (get_all_vms rs).2 = firstOutcome rs
    ∧ countGet (get_all_vms rs).1 =
        (rs.takeWhile is401).length + min 1 (rs.dropWhile is401).length := by
  induction rs with
  | nil => exact ⟨rfl, rfl, rfl⟩
  | cons r rest ih =>
    obtain ⟨ih1, ih2, ih3⟩ := ih
    cases r with
    | ok vms =>
      have hp : ¬ is401 (HTTPResult.ok vms) = true := by simp [is401]
      refine ⟨?_, ?_, ?_⟩ <;>
        simp [get_all_vms, firstOutcome, List.takeWhile_cons_of_neg hp,
          List.dropWhile_cons_of_neg hp, countRefresh, countGet,
          List.countP_cons, isRefresh, isGet]
    | httpError s =>
      by_cases h : s = 401
      · subst h
        have hp : is401 (HTTPResult.httpError 401) = true := rfl
        refine ⟨?_, ?_, ?_⟩
        · simpa [get_all_vms, countRefresh, List.countP_cons, isRefresh,
            List.takeWhile_cons_of_pos hp] using ih1
        · simpa [get_all_vms, firstOutcome, List.dropWhile_cons_of_pos hp] using ih2
        · simp only [countGet] at ih3
          simp [get_all_vms, countGet, List.countP_cons, isGet, isRefresh,
            List.takeWhile_cons_of_pos hp, List.dropWhile_cons_of_pos hp, ih3]
          omega
      · have hb : (s == 401) = false := by simp [h]
        have hp : ¬ is401 (HTTPResult.httpError s) = true := by simp [is401, hb]
        refine ⟨?_, ?_, ?_⟩
        · simp [get_all_vms, hb, countRefresh, List.countP_cons, isRefresh,
            List.takeWhile_cons_of_neg hp]
        · simp [get_all_vms, hb, firstOutcome, List.dropWhile_cons_of_neg hp]
        · simp [get_all_vms, hb, countGet, List.countP_cons, isGet,
            List.takeWhile_cons_of_neg hp, List.dropWhile_cons_of_neg hp]
    | exn =>
      have hp : ¬ is401 HTTPResult.exn = true := by simp [is401]
      refine ⟨?_, ?_, ?_⟩ <;>
        simp [get_all_vms, firstOutcome, List.takeWhile_cons_of_neg hp,
          List.dropWhile_cons_of_neg hp, countRefresh, countGet,
          List.countP_cons, isRefresh, isGet]

/-- C8 (counterexample): the claim says `_load_state` never raises and
any malformed content yields an empty map.  A state file whose content
is the well-formed JSON document `[]` — not a state mapping — reaches
`data.items()` and raises an `AttributeError` that no handler catches. -/
theorem C8_counterexample :
    _load_state "ops.example" "t0" (.parsed (.arr [])) = .error .attributeError := rfl

/-- C8 (amended): `_load_state` yields an empty map for a missing file
and for content that is not decodable as JSON, and loads every parsed
JSON object without raising; but parsed content whose top level is not a
JSON object (array, string, number, boolean or null) raises an
`AttributeError` to the caller. -/
theorem C8_amended_thm (fqdn now : String) :
    _load_state fqdn now .missing = .ok []
    ∧ _load_state fqdn now .badJson = .ok []
    ∧ (∀ kvs, _load_state fqdn now (.parsed (.obj kvs)) = .ok (loadEntries fqdn now kvs))
    ∧ (∀ j, Json.isObj j = false → _load_state fqdn now (.parsed j) = .error .attributeError) := by
  refine ⟨rfl, rfl, fun kvs => rfl, fun j hj => ?_⟩
  cases j with
  | obj l => simp [Json.isObj] at hj
  | null => rfl
  | bool b => rfl
  | num n => rfl
  | str s => rfl
  | arr l => rfl

theorem C8_witness :
    _load_state "ops.example" "t0" (.parsed (.str "oops")) = .error .attributeError :=
  (C8_amended_thm "ops.example" "t0").2.2.2 (.str "oops") rfl

/-- C9 (code bug): with an empty resolved VM list, `process_vms` logs and
performs the unconditional final checkpoint, but then the summary line
in the `finally` block interpolates the local `updates_made`, which the
early return left unassigned, so the call raises `UnboundLocalError`
to its caller instead of returning normally. -/
theorem C9_code_eval :
    process_vms [] (fun _ st => (some false, st)) [] =
      (.raised .unboundLocal, ([] : PVMap), [.save ([] : PVMap)]) := rfl

/-- C6: loading a legacy state entry that is a bare timestamp string
yields a record with name `"Unknown"` and `first_processed` equal to
`last_processed` equal to that timestamp (and no `action` key, since the
string branch never sets one); and for a legacy dict entry carrying a
boolean `ping_enabled` flag, the normalized record's `action` is
defaulted from that flag (`"ping_enabled"` for true, `"unknown"` for
false). -/
theorem C6_thm (fqdn now id ts : String) (kvs : List (String × Json)) (b : Bool)
    (hb : lookupJ kvs "ping_enabled" = some (.bool b)) :
    _load_state fqdn now (.parsed (.obj [(id, .str ts)]))
      = .ok [(id, ⟨ .str "Unknown", .str ts, .str ts, .str fqdn, none ⟩)]
    ∧ (normalize_entry fqdn now (.obj kvs)).map ProcessingRecord.action
      = some (some (if b then Json.str "ping_enabled" else Json.str "unknown")) := by
  constructor
  · rfl
  · cases b <;> simp [normalize_entry, hb, truthy]

theorem C6_witness :
    _load_state "ops.example" "t0" (.parsed (.obj [("vm-1", .str "2025-01-01T00:00:00")]))
      = .ok [("vm-1", ⟨ .str "Unknown", .str "2025-01-01T00:00:00",
          .str "2025-01-01T00:00:00", .str "ops.example", none ⟩)]
    ∧ (normalize_entry "ops.example" "t0" (.obj [("ping_enabled", .bool true)])).map
        ProcessingRecord.action
      = some (some (if true then Json.str "ping_enabled" else Json.str "unknown")) :=
  C6_thm "ops.example" "t0" "vm-1" "2025-01-01T00:00:00" [("ping_enabled", .bool true)] true rfl

theorem countRefresh_cons (e : Event) (l : List Event) :
    countRefresh (e :: l) = countRefresh l + if isRefresh e then 1 else 0 := by
  simp [countRefresh, List.countP_cons]

theorem gsv_refresh_retried (names : List String) (rs : List HTTPResult) :
    countRefresh (get_specific_vms_loop names rs true).1 = 0 := by
  induction names generalizing rs with
  | nil => rfl
  | cons nm rest ih =>
    cases rs with
    | nil =>
      simp [get_specific_vms_loop, takeResp, countRefresh_cons, isRefresh, ih]
    | cons r rs2 =>
      cases r with
      | ok vms =>
        simp [get_specific_vms_loop, takeResp, countRefresh_cons, isRefresh, ih]
      | httpError s =>
        simp [get_specific_vms_loop, takeResp, countRefresh_cons, isRefresh, ih]
      | exn =>
        simp [get_specific_vms_loop, takeResp, countRefresh_cons, isRefresh, ih]

theorem gsv_refresh_le_one (names : List String) (rs : List HTTPResult) :
    countRefresh (get_specific_vms_loop names rs false).1 ≤ 1 := by
  induction names generalizing rs with
  | nil => simp [get_specific_vms_loop, countRefresh]
  | cons nm rest ih =>
    cases rs with
    | nil =>
      simpa [get_specific_vms_loop, takeResp, countRefresh_cons, isRefresh] using ih []
    | cons r rs2 =>
      cases r with
      | ok vms =>
        simpa [get_specific_vms_loop, takeResp, countRefresh_cons, isRefresh] using ih rs2
      | httpError s =>
        by_cases h : s = 401
        · subst h
          cases rs2 with
          | nil =>
            simp [get_specific_vms_loop, takeResp, countRefresh_cons, isRefresh,
              gsv_refresh_retried]
          | cons r2 rs3 =>
            cases r2 <;>
              simp [get_specific_vms_loop, takeResp, countRefresh_cons, isRefresh,
                gsv_refresh_retried]
        · have hb : (s == 401) = false := by simp [h]
          simpa [get_specific_vms_loop, takeResp, hb, countRefresh_cons, isRefresh] using ih rs2
      | exn =>
        simpa [get_specific_vms_loop, takeResp, countRefresh_cons, isRefresh] using ih rs2

theorem gsv_skip_after_retried (nm : String) (names : List String) (rs : List HTTPResult) :
    get_specific_vms_loop (nm :: names) (.httpError 401 :: rs) true =
      (.getRequest (some nm) :: (get_specific_vms_loop names rs true).1,
        (get_specific_vms_loop names rs true).2) := rfl

/-- C4: across one `get_specific_vms` call at most one credential refresh
ever happens (the shared `retried` flag), and once the flag is set a 401
for a later name costs exactly that name's single request — no refresh,
no retry, nothing added to the output — while processing continues with
the remaining names.  In the two-name scenario where the first name's
request returns 401 and both remaining requests succeed, there is
exactly one refresh, exactly one extra request for the first name, and
both names' results appear in input order. -/
theorem C4_thm :
    (∀ names rs, countRefresh (get_specific_vms names rs).1 ≤ 1)
    ∧ (∀ names rs, countRefresh (get_specific_vms_loop names rs true).1 = 0)
    ∧ (∀ nm names rs, get_specific_vms_loop (nm :: names) (.httpError 401 :: rs) true =
        (.getRequest (some nm) :: (get_specific_vms_loop names rs true).1,
          (get_specific_vms_loop names rs true).2))
    ∧ get_specific_vms ["vm-a", "vm-b"] [.httpError 401, .ok [vmA], .ok [vmB]] =
        ([.getRequest (some "vm-a"), .refreshToken, .getRequest (some "vm-a"),
          .getRequest (some "vm-b")], [vmA, vmB]) :=
  ⟨fun names rs => gsv_refresh_le_one names rs,
   fun names rs => gsv_refresh_retried names rs,
   fun nm names rs => gsv_skip_after_retried nm names rs,
   rfl⟩

theorem C4_witness :
    countRefresh (get_specific_vms ["vm-a"] [.httpError 401, .httpError 401]).1 ≤ 1 :=
  C4_thm.1 ["vm-a"] [.httpError 401, .httpError 401]

/-- C2: for a VM that is not skipped by the cache check, the write is
never issued when no `isPingEnabled` entry carries a value other than
`"true"` (so also when the entry is absent entirely), and it is issued
exactly once when such an entry exists, with a payload whose identifier
entries are only of the four named types, whose `isPingEnabled` entries
are forced to `"true"`, and whose `VMEntityName` / `VMEntityObjectID` /
`VMEntityVCID` entries are the original ones unchanged. -/
theorem C2_thm (fqdn now : String) (vm : VMData) (cache : PVMap) (force wOk : Bool)
    (hskip : force = true ∨ _vm_in_cache vm.identifier cache = false) :
    ((¬ ∃ i ∈ vm.resourceIdentifiers, i.typeName = "isPingEnabled" ∧ i.value ≠ "true") →
      countPut (update_ping_enabled fqdn vm force cache wOk now).events = 0)
    ∧ ((∃ i ∈ vm.resourceIdentifiers, i.typeName = "isPingEnabled" ∧ i.value ≠ "true") →
      countPut (update_ping_enabled fqdn vm force cache wOk now).events = 1
      ∧ ∀ p, Event.putRequest p ∈ (update_ping_enabled fqdn vm force cache wOk now).events →
          ((∀ i ∈ p.resourceIdentifiers, isRequiredType i = true)
            ∧ (∀ i ∈ p.resourceIdentifiers, i.typeName = "isPingEnabled" → i.value = "true")
            ∧ p.resourceIdentifiers.filter isMetaType
                = vm.resourceIdentifiers.filter isMetaType)) := by
  have hcond : (!force && _vm_in_cache vm.identifier cache) = false := by
    rcases hskip with h | h <;> simp [h]
  constructor
  · intro hno
    have hn : needs_update vm = false := by
      cases hnu : needs_update vm
      · rfl
      · exact absurd ((needs_update_iff vm).mp hnu) hno
    simp [update_ping_enabled, hcond, hn, countPut]
  · intro hyes
    have hn : needs_update vm = true := (needs_update_iff vm).mpr hyes
    constructor
    · cases wOk <;>
        simp [update_ping_enabled, hcond, hn, countPut, List.countP_cons, isPut]
    · intro p hp
      have hpp : p = ⟨ vm.name, "VMWARE", "VirtualMachine",
          required_identifiers vm.resourceIdentifiers, vm.identifier ⟩ := by
        cases wOk <;> simpa [update_ping_enabled, hcond, hn] using hp
      subst hpp
      refine ⟨?_, ?_, ?_⟩
      · intro i hi
        exact List.of_mem_filter hi
      · intro i hi hping
        have hmm : i ∈ vm.resourceIdentifiers.map mutatePing :=
          List.mem_of_mem_filter hi
        obtain ⟨j, hj, hji⟩ := List.mem_map.mp hmm
        subst hji
        exact mutatePing_ping_value j hping
      · exact filter_meta_payload vm.resourceIdentifiers

theorem C2_witness :
    countPut (update_ping_enabled "ops.example" vmFull false [] true "t1").events = 1 :=
  ((C2_thm "ops.example" "t1" vmFull [] false true (Or.inr rfl)).2 (by decide)).1

theorem lookupPV_insertPV_isSome (m : PVMap) (k id : String) (r : ProcessingRecord)
    (h : (lookupPV m id).isSome = true ∨ id = k) :
    (lookupPV (insertPV m k r) id).isSome = true := by
  rcases h with h | h
  · by_cases hid : id = k
    · subst hid
      simp [lookupPV_insertPV_self]
    · rw [lookupPV_insertPV_ne m id k r hid]
      exact h
  · subst h
    simp [lookupPV_insertPV_self]

theorem update_cache_cases (fqdn now : String) (vm : VMData) (force w : Bool) (cache : PVMap) :
    (update_ping_enabled fqdn vm force cache w now).cache = cache
    ∨ ∃ a, (update_ping_enabled fqdn vm force cache w now).cache
        = insertPV cache vm.identifier (record_written fqdn now a vm cache) := by
  by_cases hc : (!force && _vm_in_cache vm.identifier cache) = true
  · left
    simp [update_ping_enabled, hc]
  · have hc2 : (!force && _vm_in_cache vm.identifier cache) = false := Bool.eq_false_iff.mpr hc
    cases hn : needs_update vm
    · right
      exact ⟨"already_enabled", by simp [update_ping_enabled, hc2, hn]⟩
    · cases w
      · left
        simp [update_ping_enabled, hc2, hn]
      · right
        exact ⟨"ping_enabled", by simp [update_ping_enabled, hc2, hn]⟩

theorem update_cache_mono (fqdn now : String) (vm : VMData) (force w : Bool)
    (cache : PVMap) (id : String) (h : _vm_in_cache id cache = true) :
    _vm_in_cache id (update_ping_enabled fqdn vm force cache w now).cache = true := by
  rcases update_cache_cases fqdn now vm force w cache with hE | ⟨a, hE⟩
  · rw [hE]
    exact h
  · rw [hE]
    exact lookupPV_insertPV_isSome cache vm.identifier id _ (Or.inl h)

theorem update_self_in_cache (fqdn now : String) (vm : VMData) (force : Bool) (cache : PVMap) :
    _vm_in_cache vm.identifier (update_ping_enabled fqdn vm force cache true now).cache = true := by
  by_cases hc : (!force && _vm_in_cache vm.identifier cache) = true
  · have hin : _vm_in_cache vm.identifier cache = true := by
      simp only [Bool.and_eq_true] at hc
      exact hc.2
    simpa [update_ping_enabled, hc] using hin
  · have hc2 : (!force && _vm_in_cache vm.identifier cache) = false := Bool.eq_false_iff.mpr hc
    cases hn : needs_update vm
    · simp only [update_ping_enabled, hc2, hn]
      simp [_vm_in_cache, lookupPV_insertPV_self]
    · simp only [update_ping_enabled, hc2, hn]
      simp [_vm_in_cache, lookupPV_insertPV_self]

theorem pass_cache_mono (fqdn : String) (force : Bool) (w : String → Bool) (now : String)
    (vms : List VMData) (cache : PVMap) (id : String) (h : _vm_in_cache id cache = true) :
    _vm_in_cache id (reconcile_pass fqdn force w now vms cache).1 = true := by
  induction vms generalizing cache with
  | nil => exact h
  | cons vm rest ih =>
    simp only [reconcile_pass]
    exact ih _ (update_cache_mono fqdn now vm force (w vm.identifier) cache id h)

theorem pass_all_in_cache (fqdn now : String) (vms : List VMData) (cache : PVMap)
    (w : String → Bool) (hw : ∀ id, w id = true) (vm : VMData) (hvm : vm ∈ vms) :
    _vm_in_cache vm.identifier (reconcile_pass fqdn false w now vms cache).1 = true := by
  induction vms generalizing cache with
  | nil => cases hvm
  | cons v rest ih =>
    simp only [reconcile_pass]
    rcases List.mem_cons.mp hvm with h | h
    · subst h
      apply pass_cache_mono
      rw [hw vm.identifier]
      exact update_self_in_cache fqdn now vm false cache
    · exact ih _ h

theorem pass_skip_all (fqdn now : String) (vms : List VMData) (cache : PVMap)
    (w : String → Bool) (h : ∀ vm ∈ vms, _vm_in_cache vm.identifier cache = true) :
    reconcile_pass fqdn false w now vms cache = (cache, []) := by
  induction vms with
  | nil => rfl
  | cons vm rest ih =>
    have hv := h vm (List.mem_cons_self vm rest)
    have hupd : update_ping_enabled fqdn vm false cache (w vm.identifier) now
        = ⟨ false, vm, cache, [] ⟩ := by
      simp [update_ping_enabled, hv]
    simp only [reconcile_pass, hupd]
    rw [ih (fun v hvv => h v (List.mem_cons_of_mem vm hvv))]
    rfl

/-- C3 (counterexample): the claim says a second reconciliation pass
with `forceUpdate=false` never issues a write, for every remote state.
When the remote rejects the single VM's PUT during the first pass, no
Processing Record is stored for it, so the second pass does not take the
cached-skip branch and issues the PUT again. -/
theorem C3_counterexample :
    countPut (reconcile_pass "ops.example" false (fun _ => false) "t2" [vmC5]
      (reconcile_pass "ops.example" false (fun _ => false) "t1" [vmC5] []).1).2 = 1 := rfl

/-- C3 (amended): provided every write issued during the first pass
succeeds, each VM examined by the first pass has a valid Processing
Record afterwards, so a second pass over the same VM set with
`forceUpdate=false` takes the cached-skip branch for every VM and
performs no write; a VM whose write failed in the first pass is instead
re-attempted by the second pass. -/
theorem C3_amended_thm (fqdn now1 now2 : String) (vms : List VMData) (cache : PVMap)
    (w : String → Bool) (hw : ∀ id, w id = true) :
    countPut (reconcile_pass fqdn false w now2 vms
      (reconcile_pass fqdn false w now1 vms cache).1).2 = 0 := by
  have hall : ∀ vm ∈ vms,
      _vm_in_cache vm.identifier (reconcile_pass fqdn false w now1 vms cache).1 = true :=
    fun vm hvm => pass_all_in_cache fqdn now1 vms cache w hw vm hvm
  rw [pass_skip_all fqdn now2 vms _ w hall]
  rfl

theorem C3_witness :
    countPut (reconcile_pass "ops.example" false (fun _ => true) "t2" [vmFull]
      (reconcile_pass "ops.example" false (fun _ => true) "t1" [vmFull] []).1).2 = 0 :=
  C3_amended_thm "ops.example" "t1" "t2" [vmFull] [] (fun _ => true) (fun _ => rfl)

theorem firstOf_update (fqdn now : String) (vm : VMData) (force w : Bool) (cache : PVMap)
    (id : String) (fp : Json) (h : firstOf cache id = some fp) :
    firstOf (update_ping_enabled fqdn vm force cache w now).cache id = some fp := by
  rcases update_cache_cases fqdn now vm force w cache with hE | ⟨a, hE⟩
  · rw [hE]
    exact h
  · rw [hE]
    by_cases hid : id = vm.identifier
    · subst hid
      cases hL : lookupPV cache vm.identifier with
      | none => simp [firstOf, hL] at h
      | some r0 =>
        have hfp : r0.first_processed = fp := by
          simp [firstOf, hL] at h
          exact h
        simp [firstOf, lookupPV_insertPV_self, record_written, hL, hfp]
    · simp only [firstOf, lookupPV_insertPV_ne cache id vm.identifier _ hid]
      exact h

theorem firstOf_pass (fqdn now : String) (force : Bool) (w : String → Bool)
    (vms : List VMData) (cache : PVMap) (id : String) (fp : Json)
    (h : firstOf cache id = some fp) :
    firstOf (reconcile_pass fqdn force w now vms cache).1 id = some fp := by
  induction vms generalizing cache with
  | nil => exact h
  | cons vm rest ih =>
    simp only [reconcile_pass]
    exact ih _ (firstOf_update fqdn now vm force (w vm.identifier) cache id fp h)

/-- C5: once a record for a VM identifier is in the state map, no later
reconciliation pass — with or without `forceUpdate`, whatever the write
outcomes — changes its `first_processed`; and a successful pass that
writes the record (update applied, or already enabled) sets
`last_processed` to that pass's timestamp while keeping the original
`first_processed`. -/
theorem C5_thm (fqdn id : String) (r : ProcessingRecord) :
    (∀ now force w vms cache, lookupPV cache id = some r →
      firstOf (reconcile_pass fqdn force w now vms cache).1 id = some r.first_processed)
    ∧ (∀ now vm wOk cache, vm.identifier = id → lookupPV cache id = some r →
        (needs_update vm = false ∨ wOk = true) →
        firstOf (update_ping_enabled fqdn vm true cache wOk now).cache id
            = some r.first_processed
        ∧ lastOf (update_ping_enabled fqdn vm true cache wOk now).cache id
            = some (Json.str now)) := by
  constructor
  · intro now force w vms cache hL
    exact firstOf_pass fqdn now force w vms cache id r.first_processed (by simp [firstOf, hL])
  · intro now vm wOk cache hid hL hOk
    subst hid
    have hc2 : (!true && _vm_in_cache vm.identifier cache) = false := by simp
    cases hn : needs_update vm
    · constructor
      · simp [update_ping_enabled, hc2, hn, firstOf, lookupPV_insertPV_self, record_written, hL]
      · simp [update_ping_enabled, hc2, hn, lastOf, lookupPV_insertPV_self, record_written]
    · have hw : wOk = true := by
        rcases hOk with h | h
        · rw [hn] at h
          cases h
        · exact h
      subst hw
      constructor
      · simp [update_ping_enabled, hc2, hn, firstOf, lookupPV_insertPV_self, record_written, hL]
      · simp [update_ping_enabled, hc2, hn, lastOf, lookupPV_insertPV_self, record_written]

theorem C5_witness :
    firstOf (reconcile_pass "ops.example" false (fun _ => false) "t1" [vmC5]
        [("vm-5", recC5)]).1 "vm-5" = some (Json.str "t0")
    ∧ (firstOf (update_ping_enabled "ops.example" vmC5 true [("vm-5", recC5)] true "t2").cache
          "vm-5" = some (Json.str "t0")
        ∧ lastOf (update_ping_enabled "ops.example" vmC5 true [("vm-5", recC5)] true "t2").cache
          "vm-5" = some (Json.str "t2")) :=
  ⟨(C5_thm "ops.example" "vm-5" recC5).1 "t1" false (fun _ => false) [vmC5]
      [("vm-5", recC5)] rfl,
    (C5_thm "ops.example" "vm-5" recC5).2 "t2" vmC5 true [("vm-5", recC5)] rfl rfl
      (Or.inr rfl)⟩

theorem attempts_append (a b : List Event) : attempts (a ++ b) = attempts a ++ attempts b := by
  simp [attempts, List.filterMap_append]

theorem attempts_attempt (id : String) (l : List Event) :
    attempts (.attempt id :: l) = id :: attempts l := by
  simp [attempts, List.filterMap_cons]

theorem attempts_logError (msg : String) (l : List Event) :
    attempts (.logError msg :: l) = attempts l := by
  simp [attempts, List.filterMap_cons]

theorem attempts_save_ite (b : Bool) (m : PVMap) :
    attempts (if b then [Event.save m] else []) = [] := by
  cases b <;> rfl

theorem attempts_loop (step : VMData → PVMap → Option Bool × PVMap)
    (vms : List VMData) (st : PVMap) (um : Nat) :
    attempts (proc_loop step vms st um).2.2 = vms.map VMData.identifier := by
  induction vms generalizing st um with
  | nil => rfl
  | cons vm rest ih =>
    simp only [proc_loop]
    cases h : (step vm st).1 with
    | none =>
      simp only [attempts_attempt, attempts_logError, ih, List.map_cons]
    | some updated =>
      simp only [attempts_attempt, attempts_append, attempts_save_ite, ih, List.map_cons,
        List.nil_append]

/-- C7: for every fetched VM list and every per-VM behaviour — including
one that raises on some or all VMs — the batch driver attempts every VM
in order (a raising VM is caught and logged, and iteration continues),
the event trace always ends with the unconditional final state
checkpoint, and the loop's exceptions never propagate: with a non-empty
list the call returns normally. -/
theorem C7_thm (vms : List VMData) (step : VMData → PVMap → Option Bool × PVMap)
    (st0 : PVMap) :
    attempts (process_vms vms step st0).2.2 = vms.map VMData.identifier
    ∧ (∃ pre, (process_vms vms step st0).2.2
        = pre ++ [Event.save (process_vms vms step st0).2.1])
    ∧ (vms ≠ [] → (process_vms vms step st0).1 = ProcResult.ret) := by
  cases vms with
  | nil => exact ⟨rfl, ⟨[], rfl⟩, fun h => absurd rfl h⟩
  | cons vm rest =>
    have hP : process_vms (vm :: rest) step st0
        = (.ret, (proc_loop step (vm :: rest) st0 0).2.1,
            (proc_loop step (vm :: rest) st0 0).2.2
              ++ [.save (proc_loop step (vm :: rest) st0 0).2.1]) := rfl
    refine ⟨?_, ?_, fun _ => ?_⟩
    · rw [hP]
      simp only [attempts_append, attempts_loop]
      simp [attempts]
    · rw [hP]
      exact ⟨(proc_loop step (vm :: rest) st0 0).2.2, rfl⟩
    · rw [hP]

theorem C7_witness :
    attempts (process_vms [vmA, vmB] stepRaise []).2.2 = [vmA, vmB].map VMData.identifier
    ∧ (process_vms [vmA, vmB] stepRaise []).1 = ProcResult.ret :=
  ⟨(C7_thm [vmA, vmB] stepRaise []).1,
    (C7_thm [vmA, vmB] stepRaise []).2.2 (by simp)⟩

theorem filter_nonping_mutate (l : List IdentifierEntry) :
    (l.map mutatePing).filter (fun i => !(i.typeName == "isPingEnabled"))
      = l.filter (fun i => !(i.typeName == "isPingEnabled")) := by
  induction l with
  | nil => rfl
  | cons i rest ih =>
    by_cases h : i.typeName = "isPingEnabled"
    · simp [List.filter_cons, mutatePing, h, ih]
    · have hmi : mutatePing i = i := by simp [mutatePing, h]
      simp [List.filter_cons, hmi, h, ih]

/-- C10: `update_ping_enabled` mutates the caller's `vm_data` in place —
whenever an update is needed (and the VM is not cache-skipped), the
`isPingEnabled` identifier entries of the returned resource object are
set to `"true"`, all other entries and the entry order are untouched,
and this holds whether or not the PUT succeeds, so the mutation persists
in the caller's object even when the write fails. -/
theorem C10_thm (fqdn now : String) (vm : VMData) (cache : PVMap) (force wOk : Bool)
    (hskip : force = true ∨ _vm_in_cache vm.identifier cache = false)
    (hneed : needs_update vm = true) :
    (update_ping_enabled fqdn vm force cache wOk now).vmData.resourceIdentifiers.map
        IdentifierEntry.typeName = vm.resourceIdentifiers.map IdentifierEntry.typeName
    ∧ (∀ i ∈ (update_ping_enabled fqdn vm force cache wOk now).vmData.resourceIdentifiers,
        i.typeName = "isPingEnabled" → i.value = "true")
    ∧ (update_ping_enabled fqdn vm force cache wOk now).vmData.resourceIdentifiers.filter
        (fun i => !(i.typeName == "isPingEnabled"))
      = vm.resourceIdentifiers.filter (fun i => !(i.typeName == "isPingEnabled")) := by
  have hcond : (!force && _vm_in_cache vm.identifier cache) = false := by
    rcases hskip with h | h <;> simp [h]
  have hvm : (update_ping_enabled fqdn vm force cache wOk now).vmData
      = ⟨ vm.identifier, vm.name, mutate_identifiers vm.resourceIdentifiers ⟩ := by
    cases wOk <;> simp [update_ping_enabled, hcond, hneed]
  rw [hvm]
  refine ⟨?_, ?_, ?_⟩
  · simp only [mutate_identifiers, List.map_map]
    apply List.map_congr_left
    intro i hi
    simp [Function.comp, mutatePing_typeName]
  · intro i hi hping
    simp only [mutate_identifiers, List.mem_map] at hi
    obtain ⟨j, hj, hji⟩ := hi
    subst hji
    exact mutatePing_ping_value j hping
  · exact filter_nonping_mutate vm.resourceIdentifiers

theorem C10_witness :
    (update_ping_enabled "ops.example" vmFull false [] false "t1").vmData.resourceIdentifiers.map
        IdentifierEntry.typeName = vmFull.resourceIdentifiers.map IdentifierEntry.typeName
    ∧ (update_ping_enabled "ops.example" vmFull false [] false "t1").vmData.resourceIdentifiers.filter
        (fun i => !(i.typeName == "isPingEnabled"))
      = vmFull.resourceIdentifiers.filter (fun i => !(i.typeName == "isPingEnabled")) :=
  ⟨(C10_thm "ops.example" "t1" vmFull [] false false (Or.inr rfl) (by decide)).1,
    (C10_thm "ops.example" "t1" vmFull [] false false (Or.inr rfl) (by decide)).2.2⟩
